import Mathlib

set_option maxRecDepth 4000

/-!
Verification development for the qualification-scoring core of the
AI-Lead-Qualifier repository (backend transcript service).

The definitions below are a shallow embedding of the functions in the
transcript service source file: the cold-signal classifier
(checkForColdLeadSignals), the heuristic fallback analyzer
(fallbackAnalysis), the response parser (parseQualificationJson, built on
a model of JavaScript JSON.parse and of the two regular expressions used
to recover JSON from malformed output), the sanitizer
(validateQualificationResult) and the orchestrator
(extractQualificationData).

Modelling conventions:
- JavaScript numbers are modelled as rationals; the only numeric
  operations the source performs on scores are comparison, addition of
  integer constants, Math.round and clamping, all exact on rationals.
- The external LLM call is modelled by an LLMOutcome parameter: the call
  can throw, return a response without a text block, or return text.
- The runtime configuration check isConfigured is modelled by a Bool
  parameter.
- A thrown JavaScript exception inside the orchestrator's try block is
  modelled by Except Unit; the surrounding catch is the match at the end
  of extractQualificationData.
- String.prototype.trim and toLowerCase are modelled structurally on
  character lists (ASCII case mapping; the keyword lists and all string
  constants of the source are ASCII).
-/

/-- JSON values as produced by JavaScript JSON.parse: null, booleans,
numbers (modelled as rationals), strings, arrays and objects (field lists
in source order; duplicate keys are resolved by jsProp taking the last
binding, as JavaScript object construction overwrites earlier keys). -/
inductive Json where
  | null
  | bool (b : Bool)
  | num (q : ℚ)
  | str (s : String)
  | arr (elems : List Json)
  | obj (fields : List (String × Json))
deriving Repr

/-- Intent classification: the three literals allowed by the Intent type
of the source. -/
inductive Intent where
  | hot
  | warm
  | cold
deriving Repr, DecidableEq

/-- CallContext from the source: all three fields optional (number | null,
string | null, string | null). Durations are integer seconds. -/
structure CallContext where
  duration : Option Int := none
  endedReason : Option String := none
  transcript : Option String := none
deriving Repr, DecidableEq

/-- QualificationResult from the source. The five descriptive fields are
typed as Json values: at runtime the sanitizer passes through whatever
truthy value the parsed object held (TypeScript's string annotation is
not enforced at runtime), so String would be an unfaithful narrowing.
All code paths of this core that construct results directly use string
literals (Json.str). -/
structure QualificationResult where
  motivation : Json
  timeline : Json
  budget : Json
  authority : Json
  pastExperience : Json
  intent : Intent
  qualificationScore : Int
deriving Repr

/-- Whitespace for the JavaScript string trim operation (ASCII part of
the WhiteSpace and LineTerminator productions). -/
def jsTrimWs (c : Char) : Bool :=
  c = ' ' || c = '\t' || c = '\n' || c = '\r' ||
  c = Char.ofNat 11 || c = Char.ofNat 12

/-- String.prototype.trim modelled structurally. -/
def jsTrim (s : String) : String :=
  String.mk (((s.toList.dropWhile jsTrimWs).reverse.dropWhile jsTrimWs).reverse)

/-- ASCII lower-casing of a character (the case relevant to the keyword
scan; all keywords are ASCII). -/
def lowerChar (c : Char) : Char :=
  if 'A' ≤ c ∧ c ≤ 'Z' then Char.ofNat (c.toNat + 32) else c

/-- String.prototype.toLowerCase modelled structurally (ASCII mapping). -/
def jsToLower (s : String) : String :=
  String.mk (s.toList.map lowerChar)

/-- getColdLeadResult from the source: a cold lead result with a custom
motivation, score 10, all other text fields "Unknown". -/
def getColdLeadResult (motivation : String) : QualificationResult :=
  { motivation := Json.str motivation
    timeline := Json.str "Unknown"
    budget := Json.str "Unknown"
    authority := Json.str "Unknown"
    pastExperience := Json.str "Unknown"
    intent := Intent.cold
    qualificationScore := 10 }

/-- The test "duration is not undefined, not null, and below the bound"
used twice by checkForColdLeadSignals. -/
def durationBelow (duration : Option Int) (bound : Int) : Bool :=
  match duration with
  | some d => d < bound
  | none => false

/-- checkForColdLeadSignals from the source: obvious cold-lead signals
from call metadata, evaluated top to bottom, first match wins.
endedReason string comparisons are strict equality, false when
endedReason is null or undefined. -/
def checkForColdLeadSignals (context : CallContext) : Option QualificationResult :=
  -- Very short call (under 15 seconds) - definitely cold
  if durationBelow context.duration 15 then
    some (getColdLeadResult "Call ended immediately - no engagement")
  -- Customer hung up quickly (under 30 seconds)
  else if context.endedReason == some "customer-ended-call" &&
      durationBelow context.duration 30 then
    some (getColdLeadResult "Customer hung up early - not interested")
  -- Silence timeout - no engagement at all
  else if context.endedReason == some "silence-timed-out" then
    some { motivation := Json.str "No engagement - call timed out due to silence"
           timeline := Json.str "Unknown"
           budget := Json.str "Unknown"
           authority := Json.str "Unknown"
           pastExperience := Json.str "Unknown"
           intent := Intent.cold
           qualificationScore := 5 }
  -- Voicemail - couldn't reach them
  else if context.endedReason == some "voicemail-reached" then
    some { motivation := Json.str "Could not reach - went to voicemail"
           timeline := Json.str "Unknown"
           budget := Json.str "Unknown"
           authority := Json.str "Unknown"
           pastExperience := Json.str "Unknown"
           intent := Intent.cold
           qualificationScore := 15 }
  -- Technical failure
  else if context.endedReason == some "pipeline-error-exceeded-max-retries" ||
      context.endedReason == some "phone-call-provider-closed-websocket" then
    some { motivation := Json.str "Call failed due to technical issues"
           timeline := Json.str "Unknown"
           budget := Json.str "Unknown"
           authority := Json.str "Unknown"
           pastExperience := Json.str "Unknown"
           intent := Intent.cold
           qualificationScore := 10 }
  else
    none

/-- Substring containment on character lists, the model of the JavaScript
String.prototype.includes used by the fallback keyword scan. -/
def containsSub (needle : List Char) : List Char → Bool
  | [] => needle.isEmpty
  | c :: rest => needle.isPrefixOf (c :: rest) || containsSub needle rest

/-- haystack.includes(needle) on strings. -/
def strContains (haystack needle : String) : Bool :=
  containsSub needle.toList haystack.toList

/-- The fixed positive-signal keyword list of fallbackAnalysis. -/
def positiveSignals : List String :=
  ["interested", "need", "want", "looking for", "excited", "great",
   "perfect", "yes", "tell me more"]

/-- The fixed negative-signal keyword list of fallbackAnalysis. -/
def negativeSignals : List String :=
  ["not interested", "maybe later", "not sure", "too expensive", "busy",
   "no thanks", "goodbye", "not right now"]

/-- fallbackAnalysis from the source: keyword- and signal-based scoring
used when the LLM is unavailable. Score adjustments are applied
sequentially exactly as in the source; the keyword loops are the two
folds. JavaScript's transcript truthiness test combined with the trim
length check is equivalent to: transcript present and non-empty after
trimming (the empty string is falsy and trims to itself). -/
def fallbackAnalysis (context : CallContext) : QualificationResult :=
  let score0 : Int := 30
  let score1 : Int :=
    match context.duration with
    | some d =>
        if d < 30 then score0 - 20
        else if d < 60 then score0 - 10
        else if d > 180 then score0 + 15
        else if d > 120 then score0 + 10
        else score0
    | none => score0
  let score2 : Int :=
    if context.endedReason == some "customer-ended-call" then score1 - 15 else score1
  let score3 : Int :=
    match context.transcript with
    | some t =>
        if jsTrim t ≠ "" then
          let lower := jsToLower t
          let sp := positiveSignals.foldl
            (fun s kw => if strContains lower kw then s + 5 else s) score2
          negativeSignals.foldl
            (fun s kw => if strContains lower kw then s - 10 else s) sp
        else score2 - 20
    | none => score2 - 20
  let score : Int := max 0 (min 100 score3)
  let intent : Intent :=
    if score ≥ 60 then Intent.hot
    else if score ≥ 35 then Intent.warm
    else Intent.cold
  { motivation := Json.str "Analysis performed without AI - limited data available"
    timeline := Json.str "Not determined"
    budget := Json.str "Not determined"
    authority := Json.str "Not determined"
    pastExperience := Json.str "Not determined"
    intent := intent
    qualificationScore := score }


/-! ### Model of JavaScript JSON.parse

A fuel-indexed recursive-descent parser for the JSON grammar (ECMA-404,
with JSON.parse whitespace: space, tab, line feed, carriage return).
Numbers are read exactly into rationals. Escape sequences are decoded;
a \u escape that names an invalid scalar value is approximated through
Char.ofNat. The fuel is the input length plus one, which is sufficient
because every recursive call consumes at least one character first. -/

/-- The four JSON whitespace characters accepted by JSON.parse. -/
def jsonWs (c : Char) : Bool :=
  c = ' ' || c = '\t' || c = '\n' || c = '\r'

/-- Skip JSON whitespace. -/
def skipJsonWs (l : List Char) : List Char :=
  l.dropWhile jsonWs

/-- The opening-brace and closing-brace characters. -/
def lbrace : Char := Char.ofNat 123

/-- Closing brace. -/
def rbrace : Char := Char.ofNat 125

/-- Hexadecimal digit value. -/
def hexVal (c : Char) : Option Nat :=
  if c.isDigit then some (c.toNat - 48)
  else if 'a' ≤ c ∧ c ≤ 'f' then some (c.toNat - 87)
  else if 'A' ≤ c ∧ c ≤ 'F' then some (c.toNat - 55)
  else none

/-- Body of a JSON string literal, after the opening quote; returns the
decoded string and the remainder after the closing quote. -/
def parseStringBody : Nat → List Char → List Char → Option (String × List Char)
  | 0, _, _ => none
  | _, [], _ => none
  | fuel + 1, c :: rest, acc =>
    if c = '"' then some (String.mk acc.reverse, rest)
    else if c = '\\' then
      match rest with
      | [] => none
      | e :: rest2 =>
        if e = '"' then parseStringBody fuel rest2 ('"' :: acc)
        else if e = '\\' then parseStringBody fuel rest2 ('\\' :: acc)
        else if e = '/' then parseStringBody fuel rest2 ('/' :: acc)
        else if e = 'b' then parseStringBody fuel rest2 (Char.ofNat 8 :: acc)
        else if e = 'f' then parseStringBody fuel rest2 (Char.ofNat 12 :: acc)
        else if e = 'n' then parseStringBody fuel rest2 ('\n' :: acc)
        else if e = 'r' then parseStringBody fuel rest2 ('\r' :: acc)
        else if e = 't' then parseStringBody fuel rest2 ('\t' :: acc)
        else if e = 'u' then
          match rest2 with
          | h1 :: h2 :: h3 :: h4 :: rest3 =>
            match hexVal h1, hexVal h2, hexVal h3, hexVal h4 with
            | some a, some b, some c3, some d =>
                parseStringBody fuel rest3 (Char.ofNat (((a * 16 + b) * 16 + c3) * 16 + d) :: acc)
            | _, _, _, _ => none
          | _ => none
        else none
    else if c.toNat < 32 then none
    else parseStringBody fuel rest (c :: acc)

/-- Numeric value of a digit list. -/
def natOfDigits (ds : List Char) : Nat :=
  ds.foldl (fun n c => 10 * n + (c.toNat - 48)) 0

/-- A JSON number starting at the head of the input: optional minus, an
integer part (a single 0 or a nonzero digit followed by digits), an
optional fraction and an optional exponent, valued exactly in ℚ. -/
def parseNumber (cs : List Char) : Option (Json × List Char) :=
  let signSplit : Bool × List Char :=
    match cs with
    | c :: rest => if c = '-' then (true, rest) else (false, cs)
    | [] => (false, cs)
  let neg := signSplit.1
  let cs1 := signSplit.2
  match cs1 with
  | c :: rest =>
    if c.isDigit then
      let intSplit : List Char × List Char :=
        if c = '0' then ([c], rest) else cs1.span Char.isDigit
      let intDs := intSplit.1
      let afterInt := intSplit.2
      let fracRes : Option (List Char × List Char) :=
        match afterInt with
        | d :: rest2 =>
          if d = '.' then
            let fracSplit := rest2.span Char.isDigit
            if fracSplit.1.isEmpty then none else some fracSplit
          else some ([], afterInt)
        | [] => some ([], afterInt)
      match fracRes with
      | none => none
      | some (fracDs, afterFrac) =>
        let expRes : Option (Bool × List Char × List Char) :=
          match afterFrac with
          | e :: rest4 =>
            if e = 'e' ∨ e = 'E' then
              let signExp : Bool × List Char :=
                match rest4 with
                | s :: r =>
                  if s = '+' then (false, r)
                  else if s = '-' then (true, r)
                  else (false, rest4)
                | [] => (false, rest4)
              let expSplit := signExp.2.span Char.isDigit
              if expSplit.1.isEmpty then none
              else some (signExp.1, expSplit.1, expSplit.2)
            else some (false, [], afterFrac)
          | [] => some (false, [], afterFrac)
        match expRes with
        | none => none
        | some (esign, expDs, afterExp) =>
          -- value = sign * digits * 10 ^ (exponent - fraction length), exactly
          let m : Nat := natOfDigits (intDs ++ fracDs)
          let signedM : Int := if neg then -(m : Int) else (m : Int)
          let expVal : Int := if esign then -(natOfDigits expDs : Int) else (natOfDigits expDs : Int)
          let netExp : Int := expVal - (fracDs.length : Int)
          let value : ℚ :=
            if 0 ≤ netExp then mkRat (signedM * 10 ^ netExp.toNat) 1
            else mkRat signedM (10 ^ (-netExp).toNat)
          some (Json.num value, afterExp)
    else none
  | [] => none

/-- A literal keyword (the tails of true, false, null). -/
def expectLit (lit : String) (cs : List Char) (v : Json) : Option (Json × List Char) :=
  if lit.toList.isPrefixOf cs then some (v, cs.drop lit.toList.length) else none

mutual

/-- A JSON value starting at the head of the input (no leading
whitespace); returns the value and the unconsumed remainder. -/
def parseValue : Nat → List Char → Option (Json × List Char)
  | 0, _ => none
  | fuel + 1, cs =>
    match cs with
    | [] => none
    | c :: rest =>
      if c = lbrace then
        match skipJsonWs rest with
        | c1 :: rest1 =>
          if c1 = rbrace then some (Json.obj [], rest1)
          else parseMembers fuel (c1 :: rest1) []
        | [] => none
      else if c = '[' then
        match skipJsonWs rest with
        | c1 :: rest1 =>
          if c1 = ']' then some (Json.arr [], rest1)
          else parseElems fuel (c1 :: rest1) []
        | [] => none
      else if c = '"' then
        match parseStringBody (rest.length + 1) rest [] with
        | some (s, rest2) => some (Json.str s, rest2)
        | none => none
      else if c = 't' then expectLit "rue" rest (Json.bool true)
      else if c = 'f' then expectLit "alse" rest (Json.bool false)
      else if c = 'n' then expectLit "ull" rest Json.null
      else if c = '-' ∨ c.isDigit then parseNumber cs
      else none

/-- The members of a JSON object, starting at a key (no leading
whitespace); accumulates fields in source order. -/
def parseMembers : Nat → List Char → List (String × Json) → Option (Json × List Char)
  | 0, _, _ => none
  | fuel + 1, cs, acc =>
    match cs with
    | c :: rest =>
      if c = '"' then
        match parseStringBody (rest.length + 1) rest [] with
        | some (key, rest1) =>
          match skipJsonWs rest1 with
          | c2 :: rest2 =>
            if c2 = ':' then
              match parseValue fuel (skipJsonWs rest2) with
              | some (v, rest3) =>
                match skipJsonWs rest3 with
                | c4 :: rest4 =>
                  if c4 = ',' then parseMembers fuel (skipJsonWs rest4) (acc ++ [(key, v)])
                  else if c4 = rbrace then some (Json.obj (acc ++ [(key, v)]), rest4)
                  else none
                | [] => none
              | none => none
            else none
          | [] => none
        | none => none
      else none
    | [] => none

/-- The elements of a JSON array, starting at a value (no leading
whitespace). -/
def parseElems : Nat → List Char → List Json → Option (Json × List Char)
  | 0, _, _ => none
  | fuel + 1, cs, acc =>
    match parseValue fuel cs with
    | some (v, rest) =>
      match skipJsonWs rest with
      | c1 :: rest1 =>
        if c1 = ',' then parseElems fuel (skipJsonWs rest1) (acc ++ [v])
        else if c1 = ']' then some (Json.arr (acc ++ [v]), rest1)
        else none
      | [] => none
    | none => none

end

/-- JSON.parse: leading and trailing whitespace allowed, the whole input
must be consumed; none models a thrown SyntaxError. -/
def jsParse (s : String) : Option Json :=
  match parseValue (s.toList.length + 1) (skipJsonWs s.toList) with
  | some (v, rest) => if (skipJsonWs rest).isEmpty then some v else none
  | none => none

/-! ### Models of the two recovery regular expressions -/

/-- Three backticks, the code-fence delimiter of the first regular
expression. -/
def fenceChars : List Char := "```".toList

/-- The character class of the regular-expression whitespace escape
(ASCII part). -/
def regexWs (c : Char) : Bool :=
  c = ' ' || c = '\t' || c = '\n' || c = '\r' ||
  c = Char.ofNat 11 || c = Char.ofNat 12

/-- Split the input at the first occurrence of a code fence: the
characters before it and the characters after it. The leftmost-match
rule of the regular expression engine is the first-occurrence search
here. -/
def splitAtFence : List Char → Option (List Char × List Char)
  | [] => none
  | c :: rest =>
    if fenceChars.isPrefixOf (c :: rest) then some ([], rest.drop 2)
    else
      match splitAtFence rest with
      | some (pre, post) => some (c :: pre, post)
      | none => none

/-- After an opening fence: the optional json tag (greedy, with
backtracking), greedy whitespace, then the lazy capture up to the next
fence. Returns the capture group. -/
def captureAfterFence (l : List Char) : Option (List Char) :=
  match (if ("json".toList).isPrefixOf l then
           match splitAtFence ((l.drop 4).dropWhile regexWs) with
           | some (cap, _) => some cap
           | none => none
         else none) with
  | some cap => some cap
  | none =>
    match splitAtFence (l.dropWhile regexWs) with
    | some (cap, _) => some cap
    | none => none

/-- Capture group 1 of the fenced-code-block regular expression applied
to the whole response text, none when the expression does not match. -/
def codeBlockCapture (s : String) : Option String :=
  match splitAtFence s.toList with
  | some (_, afterOpen) =>
    match captureAfterFence afterOpen with
    | some cap => some (String.mk cap)
    | none => none
  | none => none

/-- The whole match of the brace-substring regular expression: from the
first opening brace to the last closing brace, greedy, provided the
closing brace comes strictly after the opening one. -/
def objectMatchCapture (s : String) : Option String :=
  let l := s.toList
  match l.findIdx? (fun c => c = lbrace), l.reverse.findIdx? (fun c => c = rbrace) with
  | some i, some jr =>
    let j := l.length - 1 - jr
    if i < j then some (String.mk ((l.drop i).take (j + 1 - i))) else none
  | _, _ => none

/-- parseQualificationJson from the source: direct parse, then the fenced
code block (whose capture must be truthy, that is non-empty, and is
trimmed before parsing), then the brace substring; on total failure the
empty object. The function never throws: every parse error is caught
internally. -/
def parseQualificationJson (jsonText : String) : Json :=
  match jsParse jsonText with
  | some v => v
  | none =>
    let blockParsed : Option Json :=
      match codeBlockCapture jsonText with
      | some cap => if cap = "" then none else jsParse (jsTrim cap)
      | none => none
    match blockParsed with
    | some v => v
    | none =>
      match objectMatchCapture jsonText with
      | some m =>
        match jsParse m with
        | some v => v
        | none => Json.obj []
      | none => Json.obj []

/-- All three recovery stages of parseQualificationJson fail on this
text: the direct parse, the fenced-block parse (also when the capture is
empty and therefore falsy), and the brace-substring parse. -/
def parseTotalFailure (jsonText : String) : Bool :=
  (jsParse jsonText).isNone &&
  (match codeBlockCapture jsonText with
   | some cap => cap == "" || (jsParse (jsTrim cap)).isNone
   | none => true) &&
  (match objectMatchCapture jsonText with
   | some m => (jsParse m).isNone
   | none => true)

/-! ### The sanitizer -/

/-- The binding an object read yields for a key: the last one, because
later duplicate keys overwrite earlier ones when JSON.parse builds the
object. -/
def lookupField (fields : List (String × Json)) (key : String) : Option Json :=
  fields.foldl (fun acc f => if f.1 = key then some f.2 else acc) none

/-- Property read on a parsed JSON value: reading any property of null
raises a TypeError (the error case); objects yield their last binding
for the key; other values have no such own property, yielding undefined
(none). -/
def jsProp : Json → String → Except Unit (Option Json)
  | Json.null, _ => Except.error ()
  | Json.obj fields, key => Except.ok (lookupField fields key)
  | _, _ => Except.ok none

/-- JavaScript truthiness of a parsed JSON value. -/
def jsTruthy : Json → Bool
  | Json.null => false
  | Json.bool b => b
  | Json.num q => q != 0
  | Json.str s => s != ""
  | Json.arr _ => true
  | Json.obj _ => true

/-- The logical-or defaulting idiom of the sanitizer applied to the five
descriptive fields: a truthy value passes through, anything else is
replaced by the default string. -/
def jsOrStr : Option Json → String → Json
  | some v, dflt => if jsTruthy v then v else Json.str dflt
  | none, dflt => Json.str dflt

/-- The intent validation of the sanitizer: the value passes through
exactly when it is one of the three intent strings, anything else
(including absent) becomes cold. -/
def intentOf (o : Option Json) : Intent :=
  match o with
  | some (Json.str s) =>
    if s = "hot" then Intent.hot
    else if s = "warm" then Intent.warm
    else if s = "cold" then Intent.cold
    else Intent.cold
  | _ => Intent.cold

/-- Math.round: round half toward positive infinity, that is the floor
of q + 1/2. Written as an integer floor division so that it evaluates by
kernel reduction: for q = n/d in lowest terms with d positive,
q + 1/2 = (2n + d) / (2d), whose floor is the floor division below.
The lemma jsRound_eq_floor below checks this against Mathlib's floor. -/
def jsRound (q : ℚ) : Int :=
  (2 * q.num + (q.den : Int)).fdiv (2 * (q.den : Int))

/-- The score validation of the sanitizer: a non-number becomes 0, then
Math.max(0, Math.min(100, Math.round(score))). -/
def scoreOf (o : Option Json) : Int :=
  let raw : ℚ :=
    match o with
    | some (Json.num q) => q
    | _ => 0
  max 0 (min 100 (jsRound raw))

/-- validateQualificationResult from the source. The only way it can
raise is the property access on a null result (modelled by jsProp);
on any non-null value it returns the sanitized record. -/
def validateQualificationResult (result : Json) : Except Unit QualificationResult :=
  match jsProp result "intent" with
  | Except.error e => Except.error e
  | Except.ok intentJ =>
    Except.ok
      { motivation := jsOrStr ((jsProp result "motivation").toOption.join) "Not identified during call"
        timeline := jsOrStr ((jsProp result "timeline").toOption.join) "Not discussed"
        budget := jsOrStr ((jsProp result "budget").toOption.join) "Not discussed"
        authority := jsOrStr ((jsProp result "authority").toOption.join) "Unknown"
        pastExperience := jsOrStr ((jsProp result "pastExperience").toOption.join) "Not discussed"
        intent := intentOf intentJ
        qualificationScore := scoreOf ((jsProp result "qualificationScore").toOption.join) }

/-- The record the sanitizer yields when every property lookup is
undefined, in particular for the empty object returned on total parse
failure: every text field its default, intent cold, score 0. -/
def defaultSanitized : QualificationResult :=
  { motivation := Json.str "Not identified during call"
    timeline := Json.str "Not discussed"
    budget := Json.str "Not discussed"
    authority := Json.str "Unknown"
    pastExperience := Json.str "Not discussed"
    intent := Intent.cold
    qualificationScore := 0 }

/-! ### The orchestrator -/

/-- The observable behaviors of the single external language-model call:
it throws (network or provider error, also a missing configuration read
inside the try block), returns a response without a text block, or
returns text. -/
inductive LLMOutcome where
  | threw
  | noText
  | text (s : String)

/-- The transcript guard of the orchestrator: transcript falsy or empty
after trimming. -/
def transcriptMissing (context : CallContext) : Bool :=
  match context.transcript with
  | none => true
  | some t => jsTrim t == ""

/-- The body of the try block of extractQualificationData: the empty
transcript short-circuit, then the LLM call, then parse and sanitize.
An error value is a thrown JavaScript exception. -/
def extractTryBody (context : CallContext) (llm : LLMOutcome) : Except Unit QualificationResult :=
  if transcriptMissing context then
    Except.ok (getColdLeadResult "No conversation recorded")
  else
    match llm with
    | LLMOutcome.threw => Except.error ()
    | LLMOutcome.noText => Except.ok (fallbackAnalysis context)
    | LLMOutcome.text s =>
        validateQualificationResult (parseQualificationJson (jsTrim s))

/-- extractQualificationData from the source: cold-signal check, then the
configuration check, then the try block whose catch routes every thrown
error to fallbackAnalysis. Total: the caller never sees an exception. -/
def extractQualificationData (context : CallContext) (configured : Bool)
    (llm : LLMOutcome) : QualificationResult :=
  match checkForColdLeadSignals context with
  | some r => r
  | none =>
    if configured = false then fallbackAnalysis context
    else
      match extractTryBody context llm with
      | Except.ok r => r
      | Except.error _ => fallbackAnalysis context


/-! ### Spec-side definitions

The following definitions restate the heuristic fallback scoring the way
the specification words it, to be compared with fallbackAnalysis, which
is translated from the source. -/

/-- Duration adjustment as the spec words it: minus 20 if duration is
below 30, else minus 10 if below 60, else plus 15 if above 180, else
plus 10 if above 120; 0 if duration is absent. -/
def specDurationAdj : Option Int → Int
  | some d =>
      if d < 30 then -20
      else if d < 60 then -10
      else if d > 180 then 15
      else if d > 120 then 10
      else 0
  | none => 0

/-- End-reason adjustment as the spec words it. -/
def specReasonAdj (endedReason : Option String) : Int :=
  if endedReason == some "customer-ended-call" then -15 else 0

/-- Keyword adjustment as the spec words it: plus 5 for each positive
keyword present as a substring of the lowercased transcript, minus 10
for each negative keyword present, each keyword counted once. -/
def specKeywordAdj (t : String) : Int :=
  5 * (((positiveSignals.filter fun kw => strContains (jsToLower t) kw).length : Int)) -
  10 * (((negativeSignals.filter fun kw => strContains (jsToLower t) kw).length : Int))

/-- Transcript adjustment with the emptiness test read as empty after
trimming (the reading on which the spec formula agrees with the code). -/
def specTranscriptAdj : Option String → Int
  | some t => if jsTrim t ≠ "" then specKeywordAdj t else -20
  | none => -20

/-- The whole fallback score as the spec words it (transcript emptiness
read as empty after trimming): clamp to the range 0 to 100 of the sum of
the base 30 and the three adjustments. -/
def specFallbackScore (context : CallContext) : Int :=
  max 0 (min 100
    (30 + specDurationAdj context.duration + specReasonAdj context.endedReason +
      specTranscriptAdj context.transcript))

/-- Intent from the final score as the spec words it. -/
def specIntentOfScore (s : Int) : Intent :=
  if s ≥ 60 then Intent.hot
  else if s ≥ 35 then Intent.warm
  else Intent.cold

/-- Transcript adjustment as claim C4 literally words it: the keyword
scan applies whenever the transcript is non-empty as a string, and the
minus 20 applies when it is absent or the empty string (no trimming). -/
def claimLiteralTranscriptAdj : Option String → Int
  | some t => if t ≠ "" then specKeywordAdj t else -20
  | none => -20

/-- The fallback score as claim C4 literally words it. -/
def claimLiteralFallbackScore (context : CallContext) : Int :=
  max 0 (min 100
    (30 + specDurationAdj context.duration + specReasonAdj context.endedReason +
      claimLiteralTranscriptAdj context.transcript))

/-! ### Concrete inputs used by witnesses and counterexamples -/

/-- A context reaching the LLM path: long call, no cold signal, a
non-empty transcript without any scoring keyword. -/
def c1ctx : CallContext :=
  { duration := some 240, endedReason := none, transcript := some "hello" }

/-- The duration-8 context of claim C3: both the under-15 rule and the
customer-ended-call rule are eligible. -/
def c3ctx : CallContext :=
  { duration := some 8, endedReason := some "customer-ended-call",
    transcript := some "I am very interested" }

/-- A whitespace-only transcript with a mid-length call: the code's
trim-based emptiness test and the claim's literal emptiness test
disagree here. -/
def c4ctx : CallContext :=
  { duration := some 150, endedReason := none, transcript := some " " }

/-- The parsed object of spec scenario 6: a valid intent and an
out-of-range score 150. -/
def c5fields : List (String × Json) :=
  [("intent", Json.str "warm"), ("qualificationScore", Json.num 150)]

/-- The sanitized result of c5fields. -/
def c5result : QualificationResult :=
  { motivation := Json.str "Not identified during call"
    timeline := Json.str "Not discussed"
    budget := Json.str "Not discussed"
    authority := Json.str "Unknown"
    pastExperience := Json.str "Not discussed"
    intent := Intent.warm
    qualificationScore := 100 }

/-- Spec scenario 3: long call, reason outside the short-circuit set,
empty transcript, provider configured. -/
def c6ctx : CallContext :=
  { duration := some 240, endedReason := some "assistant-ended-call",
    transcript := some "" }

/-- Boundary context: duration exactly 15, customer ended the call. -/
def c7ctx15 : CallContext :=
  { duration := some 15, endedReason := some "customer-ended-call", transcript := none }

/-- Boundary context: duration exactly 30, customer ended the call. -/
def c7ctx30 : CallContext :=
  { duration := some 30, endedReason := some "customer-ended-call", transcript := none }

/-- A parsed object whose text fields are all falsy or absent. -/
def c8fields : List (String × Json) :=
  [("motivation", Json.str ""), ("timeline", Json.null), ("budget", Json.bool false)]

/-- A long call whose transcript contains every positive keyword and no
negative keyword: the fallback maximum. -/
def c9ctx : CallContext :=
  { duration := some 200, endedReason := none,
    transcript := some "interested need want looking for excited great perfect yes tell me more" }

/-- A long call whose transcript is exactly the phrase matched by both
keyword lists. -/
def c10ctx : CallContext :=
  { duration := some 200, endedReason := none, transcript := some "not interested" }

/-- The same call with a transcript matching no keyword at all. -/
def c10baseCtx : CallContext :=
  { duration := some 200, endedReason := none, transcript := some "hello" }

/-- The sanitized result of c8fields: every falsy text field replaced by
its default. -/
def c8result : QualificationResult :=
  { motivation := Json.str "Not identified during call"
    timeline := Json.str "Not discussed"
    budget := Json.str "Not discussed"
    authority := Json.str "Unknown"
    pastExperience := Json.str "Not discussed"
    intent := Intent.cold
    qualificationScore := 0 }

/-! ### Helper lemmas -/

/-- Two string constructors with different payloads differ. -/
theorem jsonStr_ne (s1 s2 : String) (h : s1 ≠ s2) : Json.str s1 ≠ Json.str s2 :=
  fun he => h (by injection he)

/-- Results whose motivations differ are different options. -/
theorem some_ne_of_motivation_ne (a b : QualificationResult)
    (h : a.motivation ≠ b.motivation) :
    (some a : Option QualificationResult) ≠ some b := by
  intro he
  exact h (congrArg QualificationResult.motivation (Option.some.inj he))

/-- The positive-keyword fold adds 5 for each matching keyword. -/
theorem foldl_pos_count (lower : String) :
    ∀ (l : List String) (s0 : Int),
      l.foldl (fun s kw => if strContains lower kw then s + 5 else s) s0 =
        s0 + 5 * ((l.filter fun kw => strContains lower kw).length : Int) := by
  intro l
  induction l with
  | nil => intro s0; simp
  | cons x xs ih =>
    intro s0
    cases h : strContains lower x with
    | true => simp [h, ih, List.filter_cons]; omega
    | false => simp [h, ih, List.filter_cons]

/-- The negative-keyword fold subtracts 10 for each matching keyword. -/
theorem foldl_neg_count (lower : String) :
    ∀ (l : List String) (s0 : Int),
      l.foldl (fun s kw => if strContains lower kw then s - 10 else s) s0 =
        s0 - 10 * ((l.filter fun kw => strContains lower kw).length : Int) := by
  intro l
  induction l with
  | nil => intro s0; simp
  | cons x xs ih =>
    intro s0
    cases h : strContains lower x with
    | true => simp [h, ih, List.filter_cons]; omega
    | false => simp [h, ih, List.filter_cons]

/-- The score computed by fallbackAnalysis coincides with the additive
formula of the specification (transcript emptiness read as empty after
trimming). -/
theorem fallback_score_eq_spec (context : CallContext) :
    (fallbackAnalysis context).qualificationScore = specFallbackScore context := by
  obtain ⟨dur, reason, tr⟩ := context
  simp only [fallbackAnalysis, specFallbackScore, specDurationAdj, specReasonAdj,
    specTranscriptAdj, specKeywordAdj]
  cases tr with
  | none =>
    cases dur with
    | none => dsimp only; split_ifs <;> omega
    | some d => dsimp only; split_ifs <;> omega
  | some t =>
    dsimp only
    by_cases ht : jsTrim t = ""
    · rw [if_neg (show ¬(jsTrim t ≠ "") from fun hne => hne ht),
          if_neg (show ¬(jsTrim t ≠ "") from fun hne => hne ht)]
      cases dur with
      | none => dsimp only; split_ifs <;> omega
      | some d => dsimp only; split_ifs <;> omega
    · rw [if_pos ht, if_pos ht, foldl_neg_count, foldl_pos_count]
      cases dur with
      | none => dsimp only; split_ifs <;> omega
      | some d => dsimp only; split_ifs <;> omega

/-- The intent computed by fallbackAnalysis is the threshold function of
its own final score. -/
theorem fallback_intent_eq_spec (context : CallContext) :
    (fallbackAnalysis context).intent =
      specIntentOfScore ((fallbackAnalysis context).qualificationScore) := rfl

/-- containsSub decides the infix relation on character lists. -/
theorem containsSub_correct (needle : List Char) :
    ∀ hay : List Char, containsSub needle hay = true ↔ needle <:+: hay := by
  intro hay
  induction hay with
  | nil =>
    simp only [containsSub, List.isEmpty_iff, List.infix_nil]
  | cons c rest ih =>
    simp only [containsSub, Bool.or_eq_true, ih, List.isPrefixOf_iff_prefix]
    exact List.infix_cons_iff.symm

/-- The sanitized score is clamped into the range 0 to 100. -/
theorem scoreOf_bounds (o : Option Json) :
    0 ≤ scoreOf o ∧ scoreOf o ≤ 100 := by
  simp only [scoreOf]
  omega

/-- jsRound is Math.round: the floor of q plus one half (the integer
floor-division form is used in the definition only so that it evaluates
by kernel reduction). -/
theorem jsRound_eq_floor (q : ℚ) : jsRound q = ⌊q + 1 / 2⌋ := by
  obtain ⟨n, d, hdnz, hred⟩ := q
  show (2 * n + (d : ℤ)).fdiv (2 * (d : ℤ)) = ⌊Rat.mk' n d hdnz hred + 1 / 2⌋
  have hq : (Rat.mk' n d hdnz hred : ℚ) = (n : ℚ) / (d : ℚ) := by
    rw [Rat.mk'_eq_divInt, Rat.divInt_eq_div]
    push_cast
    rfl
  rw [hq]
  have hd0 : ((d : ℚ)) ≠ 0 := Nat.cast_ne_zero.mpr hdnz
  have hkey : (n : ℚ) / (d : ℚ) + 1 / 2 = (((2 * n + (d : ℤ)) : ℤ) : ℚ) / (((2 * d : ℕ)) : ℚ) := by
    push_cast
    field_simp
    ring
  rw [hkey, Rat.floor_intCast_div_natCast]
  rw [Int.fdiv_eq_ediv _ (by positivity)]
  push_cast
  rfl

/-- The sanitizer applied to an object succeeds with the field-wise
sanitized record. -/
theorem validate_obj_eq (fields : List (String × Json)) :
    validateQualificationResult (Json.obj fields) = Except.ok
      { motivation := jsOrStr (lookupField fields "motivation") "Not identified during call"
        timeline := jsOrStr (lookupField fields "timeline") "Not discussed"
        budget := jsOrStr (lookupField fields "budget") "Not discussed"
        authority := jsOrStr (lookupField fields "authority") "Unknown"
        pastExperience := jsOrStr (lookupField fields "pastExperience") "Not discussed"
        intent := intentOf (lookupField fields "intent")
        qualificationScore := scoreOf (lookupField fields "qualificationScore") } := rfl

/-- The sanitizer on a boolean: every lookup is undefined. -/
theorem validate_bool_eq (b : Bool) :
    validateQualificationResult (Json.bool b) = Except.ok
      { motivation := jsOrStr none "Not identified during call"
        timeline := jsOrStr none "Not discussed"
        budget := jsOrStr none "Not discussed"
        authority := jsOrStr none "Unknown"
        pastExperience := jsOrStr none "Not discussed"
        intent := intentOf none
        qualificationScore := scoreOf none } := rfl

/-- The sanitizer on a number: every lookup is undefined. -/
theorem validate_num_eq (q : ℚ) :
    validateQualificationResult (Json.num q) = Except.ok
      { motivation := jsOrStr none "Not identified during call"
        timeline := jsOrStr none "Not discussed"
        budget := jsOrStr none "Not discussed"
        authority := jsOrStr none "Unknown"
        pastExperience := jsOrStr none "Not discussed"
        intent := intentOf none
        qualificationScore := scoreOf none } := rfl

/-- The sanitizer on a string: every lookup is undefined. -/
theorem validate_str_eq (s : String) :
    validateQualificationResult (Json.str s) = Except.ok
      { motivation := jsOrStr none "Not identified during call"
        timeline := jsOrStr none "Not discussed"
        budget := jsOrStr none "Not discussed"
        authority := jsOrStr none "Unknown"
        pastExperience := jsOrStr none "Not discussed"
        intent := intentOf none
        qualificationScore := scoreOf none } := rfl

/-- The sanitizer on an array: every lookup is undefined. -/
theorem validate_arr_eq (l : List Json) :
    validateQualificationResult (Json.arr l) = Except.ok
      { motivation := jsOrStr none "Not identified during call"
        timeline := jsOrStr none "Not discussed"
        budget := jsOrStr none "Not discussed"
        authority := jsOrStr none "Unknown"
        pastExperience := jsOrStr none "Not discussed"
        intent := intentOf none
        qualificationScore := scoreOf none } := rfl

/-- Whenever the sanitizer succeeds, the score it returns is in range. -/
theorem validate_ok_score_bounds (v : Json) (r : QualificationResult)
    (h : validateQualificationResult v = Except.ok r) :
    0 ≤ r.qualificationScore ∧ r.qualificationScore ≤ 100 := by
  cases v with
  | null => exact Except.noConfusion (show Except.error () = Except.ok r from h)
  | bool b =>
    rw [validate_bool_eq] at h
    simp only [Except.ok.injEq] at h
    subst h
    exact scoreOf_bounds none
  | num q =>
    rw [validate_num_eq] at h
    simp only [Except.ok.injEq] at h
    subst h
    exact scoreOf_bounds none
  | str s =>
    rw [validate_str_eq] at h
    simp only [Except.ok.injEq] at h
    subst h
    exact scoreOf_bounds none
  | arr l =>
    rw [validate_arr_eq] at h
    simp only [Except.ok.injEq] at h
    subst h
    exact scoreOf_bounds none
  | obj fields =>
    rw [validate_obj_eq] at h
    simp only [Except.ok.injEq] at h
    subst h
    exact scoreOf_bounds (lookupField fields "qualificationScore")

/-- Every short-circuit result of the cold-signal classifier has a score
in range. -/
theorem coldSignals_score_bounds (context : CallContext) (r : QualificationResult)
    (h : checkForColdLeadSignals context = some r) :
    0 ≤ r.qualificationScore ∧ r.qualificationScore ≤ 100 := by
  unfold checkForColdLeadSignals at h
  split_ifs at h <;>
    first
    | exact Option.noConfusion h
    | (rw [← Option.some.inj h]; decide)

/-- The fallback score is clamped into the range 0 to 100. -/
theorem fallback_score_bounds (context : CallContext) :
    0 ≤ (fallbackAnalysis context).qualificationScore ∧
      (fallbackAnalysis context).qualificationScore ≤ 100 := by
  rw [fallback_score_eq_spec]
  simp only [specFallbackScore]
  omega

/-- When all three recovery stages fail, parseQualificationJson returns
the empty object. -/
theorem parse_total_failure_obj (t : String) (h : parseTotalFailure t = true) :
    parseQualificationJson t = Json.obj [] := by
  unfold parseTotalFailure at h
  simp only [Bool.and_eq_true] at h
  obtain ⟨⟨h1, h2⟩, h3⟩ := h
  rw [Option.isNone_iff_eq_none] at h1
  unfold parseQualificationJson
  rw [h1]
  cases hc : codeBlockCapture t with
  | none =>
    cases ho : objectMatchCapture t with
    | none => rfl
    | some m =>
      rw [ho] at h3
      have hm : jsParse m = none := by simpa using h3
      simp [hm]
  | some cap =>
    rw [hc] at h2
    by_cases hcap : cap = ""
    · subst hcap
      simp only [if_pos rfl]
      cases ho : objectMatchCapture t with
      | none => rfl
      | some m =>
        rw [ho] at h3
        have hm : jsParse m = none := by simpa using h3
        simp [hm]
    · have hparse : jsParse (jsTrim cap) = none := by
        have h2' : cap = "" ∨ jsParse (jsTrim cap) = none := by simpa using h2
        exact h2'.resolve_left hcap
      dsimp only
      rw [if_neg hcap, hparse]
      cases ho : objectMatchCapture t with
      | none => rfl
      | some m =>
        rw [ho] at h3
        have hm : jsParse m = none := by simpa using h3
        simp [hm]

/-- Bounds for every successful outcome of the try block. -/
theorem tryBody_ok_score_bounds (context : CallContext) (llm : LLMOutcome)
    (r : QualificationResult) (h : extractTryBody context llm = Except.ok r) :
    0 ≤ r.qualificationScore ∧ r.qualificationScore ≤ 100 := by
  unfold extractTryBody at h
  by_cases ht : transcriptMissing context = true
  · rw [if_pos ht] at h
    simp only [Except.ok.injEq] at h
    subst h
    decide
  · rw [if_neg ht] at h
    cases llm with
    | threw => exact Except.noConfusion h
    | noText =>
      simp only [Except.ok.injEq] at h
      subst h
      exact fallback_score_bounds context
    | text s => exact validate_ok_score_bounds _ _ h

/-- C2: for every CallContext and every behavior of the external LLM call
(any response text, missing text content, or a thrown error) and either
configuration state, the orchestrator extractQualificationData returns a
fully populated QualificationResult (it is a total function into that
type, so it never raises to its caller) whose intent is one of hot, warm,
cold and whose qualificationScore is an integer in the range 0 to 100. -/
theorem orchestrator_result_always_valid (context : CallContext) (configured : Bool)
    (llm : LLMOutcome) :
    ((extractQualificationData context configured llm).intent = Intent.hot ∨
     (extractQualificationData context configured llm).intent = Intent.warm ∨
     (extractQualificationData context configured llm).intent = Intent.cold) ∧
    0 ≤ (extractQualificationData context configured llm).qualificationScore ∧
    (extractQualificationData context configured llm).qualificationScore ≤ 100 := by
  refine ⟨?_, ?_⟩
  · cases hi : (extractQualificationData context configured llm).intent <;> simp
  · unfold extractQualificationData
    cases hcold : checkForColdLeadSignals context with
    | some r0 =>
      dsimp only
      exact coldSignals_score_bounds context r0 hcold
    | none =>
      dsimp only
      by_cases hc : configured = false
      · rw [if_pos hc]
        exact fallback_score_bounds context
      · rw [if_neg hc]
        cases htry : extractTryBody context llm with
        | ok r0 =>
          dsimp only
          exact tryBody_ok_score_bounds context llm r0 htry
        | error e =>
          dsimp only
          exact fallback_score_bounds context

/-- C3 counterexample: at duration 8 with endedReason customer-ended-call
the classifier fires the duration rule, and the motivation it produces
has no trailing period, so it differs from the string the claim names
(which ends in a period). -/
theorem coldSignal_duration_motivation_cex :
    checkForColdLeadSignals c3ctx =
      some (getColdLeadResult "Call ended immediately - no engagement") ∧
    getColdLeadResult "Call ended immediately - no engagement" ≠
      getColdLeadResult "Call ended immediately - no engagement." := by
  refine ⟨rfl, fun he => ?_⟩
  have hm := congrArg QualificationResult.motivation he
  simp only [getColdLeadResult] at hm
  injection hm with hs
  exact absurd hs (by decide)

/-- C3 (amended: the motivation string carries no trailing period): for
every CallContext whose duration is present and strictly below 15, the
cold-signal classifier short-circuits with intent cold, score 10 and
motivation "Call ended immediately - no engagement", regardless of the
transcript and of the endedReason; the duration rule is evaluated before
the customer-ended-call rule, so first match wins. -/
theorem coldSignal_short_duration (context : CallContext) (d : Int)
    (hdur : context.duration = some d) (hlt : d < 15) :
    checkForColdLeadSignals context =
      some (getColdLeadResult "Call ended immediately - no engagement") := by
  unfold checkForColdLeadSignals
  have hb : durationBelow context.duration 15 = true := by
    rw [hdur]
    simp only [durationBelow, decide_eq_true_eq]
    omega
  rw [if_pos hb]

/-- C3 witness: at duration 8 and endedReason customer-ended-call the
duration rule fires (before the customer-ended-call rule). -/
theorem coldSignal_short_duration_witness :
    checkForColdLeadSignals c3ctx =
      some (getColdLeadResult "Call ended immediately - no engagement") :=
  coldSignal_short_duration c3ctx 8 rfl (by decide)

/-- C6: for every CallContext on which no cold-signal rule fires, with
the provider configured, whose transcript is absent or empty after
trimming, the orchestrator returns the cold result with motivation
"No conversation recorded" and score 10 whatever the LLM would have
done: the model is never consulted. -/
theorem orchestrator_empty_transcript (context : CallContext) (llm : LLMOutcome)
    (hcold : checkForColdLeadSignals context = none)
    (hempty : transcriptMissing context = true) :
    extractQualificationData context true llm =
      getColdLeadResult "No conversation recorded" := by
  unfold extractQualificationData
  rw [hcold]
  dsimp only
  rw [if_neg (by decide : ¬(true = false))]
  rw [show extractTryBody context llm =
        Except.ok (getColdLeadResult "No conversation recorded") from by
      unfold extractTryBody
      rw [if_pos hempty]]

/-- C6 witness: spec scenario 3, at duration 240 with reason
assistant-ended-call and an empty transcript, even an LLM call that
would throw never happens: the empty-transcript cold result is
returned. -/
theorem orchestrator_empty_transcript_witness :
    extractQualificationData c6ctx true LLMOutcome.threw =
      getColdLeadResult "No conversation recorded" :=
  orchestrator_empty_transcript c6ctx LLMOutcome.threw rfl rfl

/-- C7: the duration rules of the cold-signal classifier use strict
inequalities: at duration exactly 15 the under-15 short-circuit does not
fire (its result is never returned), and at duration exactly 30 with
endedReason customer-ended-call the under-30 short-circuit does not
fire. -/
theorem coldSignal_boundaries (context : CallContext) :
    (context.duration = some 15 →
      checkForColdLeadSignals context ≠
        some (getColdLeadResult "Call ended immediately - no engagement")) ∧
    (context.duration = some 30 → context.endedReason = some "customer-ended-call" →
      checkForColdLeadSignals context ≠
        some (getColdLeadResult "Customer hung up early - not interested")) := by
  obtain ⟨dur, reason, tr⟩ := context
  constructor
  · intro hdur
    simp only at hdur
    subst hdur
    unfold checkForColdLeadSignals
    rw [if_neg (by decide : ¬(durationBelow (some 15) 15 = true))]
    split_ifs <;>
      first
      | exact some_ne_of_motivation_ne _ _ (jsonStr_ne _ _ (by decide))
      | simp
  · intro hdur hreason
    simp only at hdur hreason
    subst hdur
    subst hreason
    have hnone : checkForColdLeadSignals
        { duration := some 30, endedReason := some "customer-ended-call",
          transcript := tr } = none := rfl
    rw [hnone]
    simp

/-- C7 witness: the two boundary contexts. -/
theorem coldSignal_boundaries_witness :
    checkForColdLeadSignals c7ctx15 ≠
      some (getColdLeadResult "Call ended immediately - no engagement") ∧
    checkForColdLeadSignals c7ctx30 ≠
      some (getColdLeadResult "Customer hung up early - not interested") :=
  ⟨(coldSignal_boundaries c7ctx15).1 rfl, (coldSignal_boundaries c7ctx30).2 rfl rfl⟩

/-- The raw score the sanitizer reads is 0 whenever the looked-up value
is not a number. -/
theorem scoreOf_non_num (o : Option Json) (h : ∀ q : ℚ, o ≠ some (Json.num q)) :
    scoreOf o = 0 := by
  have hraw : (match o with
      | some (Json.num q) => q
      | _ => (0 : ℚ)) = (0 : ℚ) := by
    cases o with
    | none => rfl
    | some v =>
      cases v with
      | num q => exact absurd rfl (h q)
      | null => rfl
      | bool b => rfl
      | str s => rfl
      | arr l => rfl
      | obj fields => rfl
  simp only [scoreOf, hraw]
  decide

/-- C5: for every object the parser produced, the sanitizer keeps the
intent exactly when it is one of the three strings hot, warm, cold and
coerces everything else (including an absent field) to cold; the score
is the rounded and clamped input when the input is numeric and 0
otherwise. (The witness instantiates the spec example: an input score of
150 is clamped to 100.) -/
theorem sanitizer_intent_and_score (fields : List (String × Json)) (r : QualificationResult)
    (h : validateQualificationResult (Json.obj fields) = Except.ok r) :
    (lookupField fields "intent" = some (Json.str "hot") → r.intent = Intent.hot) ∧
    (lookupField fields "intent" = some (Json.str "warm") → r.intent = Intent.warm) ∧
    (lookupField fields "intent" = some (Json.str "cold") → r.intent = Intent.cold) ∧
    ((lookupField fields "intent" ≠ some (Json.str "hot") ∧
      lookupField fields "intent" ≠ some (Json.str "warm") ∧
      lookupField fields "intent" ≠ some (Json.str "cold")) → r.intent = Intent.cold) ∧
    (∀ q : ℚ, lookupField fields "qualificationScore" = some (Json.num q) →
      r.qualificationScore = max 0 (min 100 (jsRound q))) ∧
    ((∀ q : ℚ, lookupField fields "qualificationScore" ≠ some (Json.num q)) →
      r.qualificationScore = 0) := by
  rw [validate_obj_eq] at h
  simp only [Except.ok.injEq] at h
  subst h
  refine ⟨?_, ?_, ?_, ?_, ?_, ?_⟩
  · intro hi
    show intentOf (lookupField fields "intent") = Intent.hot
    rw [hi]
    decide
  · intro hi
    show intentOf (lookupField fields "intent") = Intent.warm
    rw [hi]
    decide
  · intro hi
    show intentOf (lookupField fields "intent") = Intent.cold
    rw [hi]
    decide
  · rintro ⟨h1, h2, h3⟩
    show intentOf (lookupField fields "intent") = Intent.cold
    cases ho : lookupField fields "intent" with
    | none => rfl
    | some v =>
      rw [ho] at h1 h2 h3
      cases v with
      | str s =>
        show (if s = "hot" then Intent.hot
          else if s = "warm" then Intent.warm
          else if s = "cold" then Intent.cold
          else Intent.cold) = Intent.cold
        split_ifs with hs1 hs2 hs3
        · exact absurd (by rw [hs1]) h1
        · exact absurd (by rw [hs2]) h2
        · exact absurd (by rw [hs3]) h3
        · rfl
      | null => rfl
      | bool b => rfl
      | num q => rfl
      | arr l => rfl
      | obj f2 => rfl
  · intro q hq
    show scoreOf (lookupField fields "qualificationScore") = max 0 (min 100 (jsRound q))
    rw [hq]
    rfl
  · intro hnum
    exact scoreOf_non_num (lookupField fields "qualificationScore") hnum

/-- C5 witness: spec scenario 6, the object with intent warm and score
150 sanitizes to intent warm and score 100. -/
theorem sanitizer_intent_and_score_witness :
    validateQualificationResult (Json.obj c5fields) = Except.ok c5result ∧
    c5result.intent = Intent.warm ∧ c5result.qualificationScore = 100 :=
  have h : validateQualificationResult (Json.obj c5fields) = Except.ok c5result := rfl
  ⟨h, (sanitizer_intent_and_score c5fields c5result h).2.1 rfl,
    ((sanitizer_intent_and_score c5fields c5result h).2.2.2.2.1 150 rfl).trans (by decide)⟩

/-- A truthy value is neither the empty string nor null, so the logical
or defaulting never yields those when the default string is non-empty. -/
theorem jsOrStr_ne_empty_null (o : Option Json) (d : String) (hd : d ≠ "") :
    jsOrStr o d ≠ Json.str "" ∧ jsOrStr o d ≠ Json.null := by
  cases o with
  | none => exact ⟨jsonStr_ne _ _ hd, fun he => Json.noConfusion he⟩
  | some v =>
    by_cases hv : jsTruthy v = true
    · have he : jsOrStr (some v) d = v := by
        simp only [jsOrStr]
        rw [if_pos hv]
      rw [he]
      constructor
      · intro hveq
        subst hveq
        exact absurd hv (by decide)
      · intro hveq
        subst hveq
        exact absurd hv (by decide)
    · have he : jsOrStr (some v) d = Json.str d := by
        simp only [jsOrStr]
        rw [if_neg hv]
      rw [he]
      exact ⟨jsonStr_ne _ _ hd, fun he2 => Json.noConfusion he2⟩

/-- An absent, null or empty-string value is falsy, so the defaulting
yields the default string. -/
theorem jsOrStr_default (o : Option Json) (d : String)
    (h : o = none ∨ o = some Json.null ∨ o = some (Json.str "")) :
    jsOrStr o d = Json.str d := by
  rcases h with h | h | h <;> subst h <;> rfl

/-- C8: for every object the parser produced, each of the five text
fields of the sanitized output is neither the empty string nor null, and
an absent, null, or empty-string input field is replaced by its
field-specific default string. -/
theorem sanitizer_text_fields_nonempty (fields : List (String × Json)) (r : QualificationResult)
    (h : validateQualificationResult (Json.obj fields) = Except.ok r) :
    ((r.motivation ≠ Json.str "" ∧ r.motivation ≠ Json.null) ∧
     (r.timeline ≠ Json.str "" ∧ r.timeline ≠ Json.null) ∧
     (r.budget ≠ Json.str "" ∧ r.budget ≠ Json.null) ∧
     (r.authority ≠ Json.str "" ∧ r.authority ≠ Json.null) ∧
     (r.pastExperience ≠ Json.str "" ∧ r.pastExperience ≠ Json.null)) ∧
    ((lookupField fields "motivation" = none ∨
      lookupField fields "motivation" = some Json.null ∨
      lookupField fields "motivation" = some (Json.str "")) →
        r.motivation = Json.str "Not identified during call") ∧
    ((lookupField fields "timeline" = none ∨
      lookupField fields "timeline" = some Json.null ∨
      lookupField fields "timeline" = some (Json.str "")) →
        r.timeline = Json.str "Not discussed") ∧
    ((lookupField fields "budget" = none ∨
      lookupField fields "budget" = some Json.null ∨
      lookupField fields "budget" = some (Json.str "")) →
        r.budget = Json.str "Not discussed") ∧
    ((lookupField fields "authority" = none ∨
      lookupField fields "authority" = some Json.null ∨
      lookupField fields "authority" = some (Json.str "")) →
        r.authority = Json.str "Unknown") ∧
    ((lookupField fields "pastExperience" = none ∨
      lookupField fields "pastExperience" = some Json.null ∨
      lookupField fields "pastExperience" = some (Json.str "")) →
        r.pastExperience = Json.str "Not discussed") := by
  rw [validate_obj_eq] at h
  simp only [Except.ok.injEq] at h
  subst h
  refine ⟨⟨?_, ?_, ?_, ?_, ?_⟩, ?_, ?_, ?_, ?_, ?_⟩
  · exact jsOrStr_ne_empty_null _ _ (by decide)
  · exact jsOrStr_ne_empty_null _ _ (by decide)
  · exact jsOrStr_ne_empty_null _ _ (by decide)
  · exact jsOrStr_ne_empty_null _ _ (by decide)
  · exact jsOrStr_ne_empty_null _ _ (by decide)
  · exact fun hd => jsOrStr_default _ _ hd
  · exact fun hd => jsOrStr_default _ _ hd
  · exact fun hd => jsOrStr_default _ _ hd
  · exact fun hd => jsOrStr_default _ _ hd
  · exact fun hd => jsOrStr_default _ _ hd

/-- C8 witness: an object whose motivation is the empty string, whose
timeline is null and whose budget is false sanitizes to the default
strings everywhere. -/
theorem sanitizer_text_fields_nonempty_witness :
    validateQualificationResult (Json.obj c8fields) = Except.ok c8result ∧
    c8result.motivation = Json.str "Not identified during call" ∧
    c8result.timeline = Json.str "Not discussed" ∧
    c8result.motivation ≠ Json.str "" ∧ c8result.timeline ≠ Json.null :=
  have h : validateQualificationResult (Json.obj c8fields) = Except.ok c8result := rfl
  ⟨h, (sanitizer_text_fields_nonempty c8fields c8result h).2.1 (Or.inr (Or.inr rfl)),
    (sanitizer_text_fields_nonempty c8fields c8result h).2.2.1 (Or.inr (Or.inl rfl)),
    (sanitizer_text_fields_nonempty c8fields c8result h).1.1.1,
    (sanitizer_text_fields_nonempty c8fields c8result h).1.2.1.2⟩

/-- C1 counterexample: a configured call with a long clean context whose
model response admits no JSON recovery: the orchestrator's result is not
the heuristic fallback result (their scores differ, 0 against 45). -/
theorem parse_failure_not_fallback_cex :
    parseTotalFailure (jsTrim "no json here") = true ∧
    checkForColdLeadSignals c1ctx = none ∧
    transcriptMissing c1ctx = false ∧
    extractQualificationData c1ctx true (LLMOutcome.text "no json here") ≠
      fallbackAnalysis c1ctx := by
  refine ⟨by decide, rfl, by decide, fun he => ?_⟩
  have hs := congrArg QualificationResult.qualificationScore he
  exact absurd hs (by decide)

/-- C1 (amended): for every CallContext with the provider configured, a
non-empty transcript and no cold-signal rule firing, when all three
recovery stages of the Response Parser fail on the model's trimmed
response text, the orchestrator returns the sanitizer's defaults for the
empty object (motivation "Not identified during call", timeline
"Not discussed", budget "Not discussed", authority "Unknown",
pastExperience "Not discussed", intent cold, qualificationScore 0), not
the Heuristic Fallback result. -/
theorem parse_failure_returns_sanitizer_defaults (context : CallContext) (t : String)
    (hcold : checkForColdLeadSignals context = none)
    (htr : transcriptMissing context = false)
    (hfail : parseTotalFailure (jsTrim t) = true) :
    extractQualificationData context true (LLMOutcome.text t) = defaultSanitized := by
  unfold extractQualificationData
  rw [hcold]
  dsimp only
  rw [if_neg (by decide : ¬(true = false))]
  have htry : extractTryBody context (LLMOutcome.text t) = Except.ok defaultSanitized := by
    unfold extractTryBody
    rw [if_neg (by simp [htr])]
    dsimp only
    rw [parse_total_failure_obj _ hfail]
    rfl
  rw [htry]

/-- C1 witness: the concrete unparseable response. -/
theorem parse_failure_returns_sanitizer_defaults_witness :
    extractQualificationData c1ctx true (LLMOutcome.text "no json here") =
      defaultSanitized :=
  parse_failure_returns_sanitizer_defaults c1ctx "no json here" rfl (by decide) (by decide)

/-- C4 counterexample: on a whitespace-only transcript with duration 150
the code takes the no-transcript branch (score 20, having applied the
minus 20), while the claim's literal reading of "empty" scans the
transcript for keywords (score 40). -/
theorem fallback_whitespace_transcript_cex :
    (fallbackAnalysis c4ctx).qualificationScore = 20 ∧
    claimLiteralFallbackScore c4ctx = 40 ∧
    (fallbackAnalysis c4ctx).qualificationScore ≠ claimLiteralFallbackScore c4ctx :=
  ⟨by decide, by decide, by decide⟩

/-- C4 (amended: the transcript emptiness tests are after trimming): for
every CallContext the fallback's qualificationScore equals the clamp to
the range 0 to 100 of 30 plus the duration adjustment, the
customer-ended-call adjustment, and the transcript adjustment (keyword
sums when the transcript is non-empty after trimming, minus 20 when it
is absent or empty after trimming); and the intent is the threshold
function of that score. -/
theorem fallback_matches_spec_formula (context : CallContext) :
    (fallbackAnalysis context).qualificationScore = specFallbackScore context ∧
    (fallbackAnalysis context).intent = specIntentOfScore (specFallbackScore context) :=
  ⟨fallback_score_eq_spec context,
    (fallback_intent_eq_spec context).trans
      (congrArg specIntentOfScore (fallback_score_eq_spec context))⟩

/-- C9: the heuristic fallback score never exceeds 90 (base 30, duration
bonus at most 15, at most nine positive keywords worth 5 each), so a
score of 100 is unreachable on the fallback path, although intent hot is
reachable: the all-keywords long call reaches exactly 90 and hot. -/
theorem fallback_score_at_most_90 :
    (∀ context : CallContext, (fallbackAnalysis context).qualificationScore ≤ 90) ∧
    (∀ context : CallContext, (fallbackAnalysis context).qualificationScore ≠ 100) ∧
    (fallbackAnalysis c9ctx).qualificationScore = 90 ∧
    (fallbackAnalysis c9ctx).intent = Intent.hot := by
  have hbound : ∀ context : CallContext,
      (fallbackAnalysis context).qualificationScore ≤ 90 := by
    intro context
    rw [fallback_score_eq_spec]
    have hdur : specDurationAdj context.duration ≤ 15 := by
      cases hd : context.duration with
      | none => simp [specDurationAdj]
      | some d =>
        simp only [specDurationAdj]
        split_ifs <;> omega
    have hreason : specReasonAdj context.endedReason ≤ 0 := by
      unfold specReasonAdj
      split_ifs <;> omega
    have htr : specTranscriptAdj context.transcript ≤ 45 := by
      cases ht : context.transcript with
      | none => simp [specTranscriptAdj]
      | some t =>
        simp only [specTranscriptAdj]
        split_ifs with h
        · unfold specKeywordAdj
          have hp : (positiveSignals.filter fun kw =>
              strContains (jsToLower t) kw).length ≤ 9 := by
            have hle := List.length_filter_le
              (fun kw => strContains (jsToLower t) kw) positiveSignals
            simpa using hle
          have hn : 0 ≤ ((negativeSignals.filter fun kw =>
              strContains (jsToLower t) kw).length : Int) := Int.ofNat_nonneg _
          omega
        · omega
    unfold specFallbackScore
    omega
  exact ⟨hbound, fun context => by have := hbound context; omega, by decide, by decide⟩

/-- C10: keyword matching is by substring containment, so the positive
keyword "interested" matches inside the negative keyword
"not interested": every lowercased transcript containing the negative
phrase also matches the positive keyword, and on the pure phrase the
net effect against a keyword-free transcript is minus 5 (score 40
against 45), not minus 10. -/
theorem fallback_not_interested_double_count :
    (∀ t : String, strContains (jsToLower t) "not interested" = true →
      strContains (jsToLower t) "interested" = true) ∧
    strContains "not interested" "interested" = true ∧
    (fallbackAnalysis c10ctx).qualificationScore = 40 ∧
    (fallbackAnalysis c10baseCtx).qualificationScore = 45 := by
  refine ⟨?_, by decide, by decide, by decide⟩
  intro t h
  have h1 : ("not interested".toList : List Char) <:+: (jsToLower t).toList :=
    (containsSub_correct _ _).mp h
  have h2 : ("interested".toList : List Char) <:+: ("not interested".toList : List Char) :=
    (containsSub_correct _ _).mp (by decide)
  exact (containsSub_correct _ _).mpr (h2.trans h1)

/-- C10 witness: a mixed-case transcript containing the negative phrase
also matches the positive keyword after lowercasing. -/
theorem fallback_not_interested_double_count_witness :
    strContains (jsToLower "I am NOT interested") "interested" = true :=
  fallback_not_interested_double_count.1 "I am NOT interested" (by decide)
